import Mathlib

/-!
Verification of the chen1110 diagnosis subsystem: a shallow embedding of the
diagnosis data manager (`chen1110/controller/data_manager.py`), the diagnosis
agent (`chen1110/controller/diagnosis.py`), and the serializable diagnosis data
structures (`chen1110/common/diagnosis_data.py`, `chen1110/common/constants.py`).

Modelling conventions:
- Python `int` is `Int`; timestamps are integer seconds as in the source.
- `time.time()` reads are made explicit: functions that call it in Python take a
  `current_time : Int` argument.
- Python dicts are association lists with first-match lookup and
  insert-or-overwrite update (`dictFind` / `dictSet`); keys are unique in every
  reachable state, as in Python.
- `json.dumps`/`json.loads` are modelled at the level of the JSON document tree
  (`PyJson`): `to_json` produces the tree that would be dumped, `from_json`
  consumes it.  Fields are typed per the dataclass annotations, so shape
  mismatches that Python would silently store as junk are decode errors here.
- Raising an exception is `Except.error`; functions that cannot raise are pure.
-/

namespace Chen1110

/-- JSON document tree, the common representation between `json.dumps` and
`json.loads` (integral numbers only; the diagnosis payloads use none other). -/
inductive PyJson : Type where
  | null : PyJson
  | bool (b : Bool) : PyJson
  | int (n : Int) : PyJson
  | str (s : String) : PyJson
  | arr (xs : List PyJson) : PyJson
  | obj (kvs : List (String × PyJson)) : PyJson

/-- `DiagnosisDataType` enumeration from `chen1110/common/constants.py`. -/
inductive DiagnosisDataType : Type where
  | RESOURCE_STATS
  | XPU_TIMER_METRIC
  | TRAINING_LOG
  | STACK_TRACE
  | TRAINING_METRIC
deriving DecidableEq, Repr

/-- Python's `Enum.name` for `DiagnosisDataType`. -/
def DiagnosisDataType.name : DiagnosisDataType → String
  | .RESOURCE_STATS => "RESOURCE_STATS"
  | .XPU_TIMER_METRIC => "XPU_TIMER_METRIC"
  | .TRAINING_LOG => "TRAINING_LOG"
  | .STACK_TRACE => "STACK_TRACE"
  | .TRAINING_METRIC => "TRAINING_METRIC"

/-- Python's `DiagnosisDataType[name]` lookup; `none` models the `KeyError`. -/
def DiagnosisDataType.ofName : String → Option DiagnosisDataType
  | "RESOURCE_STATS" => some .RESOURCE_STATS
  | "XPU_TIMER_METRIC" => some .XPU_TIMER_METRIC
  | "TRAINING_LOG" => some .TRAINING_LOG
  | "STACK_TRACE" => some .STACK_TRACE
  | "TRAINING_METRIC" => some .TRAINING_METRIC
  | _ => none

/-- `DiagnosisActionType` enumeration from `chen1110/common/constants.py`. -/
inductive DiagnosisActionType : Type where
  | NO_ACTION
  | RESTART_WORKER
  | RELAUNCH_WORKER
  | RESTART_NODE
  | STOP_JOB
deriving DecidableEq, Repr

/-- Python's `Enum.name` for `DiagnosisActionType`. -/
def DiagnosisActionType.name : DiagnosisActionType → String
  | .NO_ACTION => "NO_ACTION"
  | .RESTART_WORKER => "RESTART_WORKER"
  | .RELAUNCH_WORKER => "RELAUNCH_WORKER"
  | .RESTART_NODE => "RESTART_NODE"
  | .STOP_JOB => "STOP_JOB"

/-- Python's `DiagnosisActionType[name]` lookup; `none` models the `KeyError`. -/
def DiagnosisActionType.ofName : String → Option DiagnosisActionType
  | "NO_ACTION" => some .NO_ACTION
  | "RESTART_WORKER" => some .RESTART_WORKER
  | "RELAUNCH_WORKER" => some .RELAUNCH_WORKER
  | "RESTART_NODE" => some .RESTART_NODE
  | "STOP_JOB" => some .STOP_JOB
  | _ => none

/-- Constants from `DiagnosisConstant` in `chen1110/common/constants.py`. -/
def DiagnosisConstant.MIN_DATA_COLLECT_INTERVAL : Int := 30

/-- The `LOCAL_INSTANCE` constant from `DiagnosisConstant`. -/
def DiagnosisConstant.LOCAL_INSTANCE : String := "local"

/-- The dataclass `WorkerTrainingMetric` from `chen1110/common/diagnosis_data.py`. -/
structure WorkerTrainingMetric : Type where
  data_type : DiagnosisDataType
  data_content : String
  node_id : Int := -1
  node_type : String := ""
  node_rank : Int := -1
  timestamp : Int := 0
deriving DecidableEq, Repr

/-- Python-dict lookup on an association list: the value at the first matching
key, `none` when the key is absent. -/
def dictFind {κ α : Type} [DecidableEq κ] (d : List (κ × α)) (k : κ) : Option α :=
  match d with
  | [] => none
  | (k₁, v₁) :: rest => if k₁ = k then some v₁ else dictFind rest k

/-- Python-dict update on an association list: overwrite the value at an
existing key in place, otherwise append the new binding at the end. -/
def dictSet {κ α : Type} [DecidableEq κ] (d : List (κ × α)) (k : κ) (v : α) :
    List (κ × α) :=
  match d with
  | [] => [(k, v)]
  | (k₁, v₁) :: rest => if k₁ = k then (k₁, v) :: rest else (k₁, v₁) :: dictSet rest k v

/-- Keys of a Python dict, in insertion order. -/
def dictKeys {κ α : Type} (d : List (κ × α)) : List κ :=
  d.map Prod.fst

/-- `data.get(k, default)`: lookup with a default value. -/
def dictGetD {α : Type} (d : List (String × α)) (k : String) (v : α) : α :=
  (dictFind d k).getD v

/-- `data[k]` on a decoded JSON object: `KeyError` when the key is absent. -/
def jsonField (kvs : List (String × PyJson)) (k : String) : Except String PyJson :=
  match dictFind kvs k with
  | some v => .ok v
  | none => .error "KeyError"

/-- Reads a JSON string (the dataclass field is annotated `str`). -/
def asStr : PyJson → Except String String
  | .str s => .ok s
  | _ => .error "TypeError"

/-- Reads a JSON integer (the dataclass field is annotated `int`). -/
def asInt : PyJson → Except String Int
  | .int n => .ok n
  | _ => .error "TypeError"

/-- `WorkerTrainingMetric.to_json`: the JSON document that `json.dumps` emits. -/
def WorkerTrainingMetric.to_json (m : WorkerTrainingMetric) : PyJson :=
  .obj
    [("data_type", .str m.data_type.name),
     ("data_content", .str m.data_content),
     ("node_id", .int m.node_id),
     ("node_type", .str m.node_type),
     ("node_rank", .int m.node_rank),
     ("timestamp", .int m.timestamp)]

/-- `WorkerTrainingMetric.from_json`: required `data_type`/`data_content`
fields, the rest read through `data.get` with the dataclass defaults. -/
def WorkerTrainingMetric.from_json (j : PyJson) :
    Except String WorkerTrainingMetric := do
  match j with
  | .obj kvs =>
    let dts ← asStr (← jsonField kvs "data_type")
    match DiagnosisDataType.ofName dts with
    | none => .error "KeyError"
    | some dt =>
      let content ← asStr (← jsonField kvs "data_content")
      let nid ← asInt (dictGetD kvs "node_id" (.int (-1)))
      let ntype ← asStr (dictGetD kvs "node_type" (.str ""))
      let nrank ← asInt (dictGetD kvs "node_rank" (.int (-1)))
      let ts ← asInt (dictGetD kvs "timestamp" (.int 0))
      .ok
        { data_type := dt, data_content := content, node_id := nid,
          node_type := ntype, node_rank := nrank, timestamp := ts }
  | _ => .error "TypeError"

/-- The dataclass `DiagnosisAction` from `chen1110/common/diagnosis_data.py`. -/
structure DiagnosisAction : Type where
  action_type : DiagnosisActionType
  node_id : Option Int := none
  node_type : Option String := none
  «instance» : String := ""
  reason : String := ""
  details : List (String × PyJson) := []

/-- The `NoAction` subclass constructor: a `DiagnosisAction` carrying
`NO_ACTION` and the dataclass defaults. -/
def NoAction : DiagnosisAction :=
  { action_type := .NO_ACTION }

/-- The `NodeAction` subclass constructor, mirroring its `__init__` signature. -/
def NodeAction (node_id : Int) (node_type : String) (inst : String)
    (action_type : DiagnosisActionType) (reason : String := "") : DiagnosisAction :=
  { action_type := action_type, node_id := some node_id,
    node_type := some node_type, «instance» := inst, reason := reason }

/-- `DiagnosisAction.to_json`: the JSON document that `json.dumps` emits
(`None` becomes `null`). -/
def DiagnosisAction.to_json (a : DiagnosisAction) : PyJson :=
  .obj
    [("action_type", .str a.action_type.name),
     ("node_id", match a.node_id with | some n => .int n | none => .null),
     ("node_type", match a.node_type with | some s => .str s | none => .null),
     ("instance", .str a.«instance»),
     ("reason", .str a.reason),
     ("details", .obj a.details)]

/-- `DiagnosisAction.from_json`: required `action_type`, the rest via
`data.get`; `data.get("node_id")` yields `None` for both an absent key and a
JSON `null`. -/
def DiagnosisAction.from_json (j : PyJson) : Except String DiagnosisAction := do
  match j with
  | .obj kvs =>
    let ats ← asStr (← jsonField kvs "action_type")
    match DiagnosisActionType.ofName ats with
    | none => .error "KeyError"
    | some atype =>
      let nid ←
        (match dictGetD kvs "node_id" .null with
         | .null => Except.ok (none : Option Int)
         | .int n => Except.ok (some n)
         | _ => Except.error "TypeError")
      let ntype ←
        (match dictGetD kvs "node_type" .null with
         | .null => Except.ok (none : Option String)
         | .str s => Except.ok (some s)
         | _ => Except.error "TypeError")
      let inst ← asStr (dictGetD kvs "instance" (.str ""))
      let reason ← asStr (dictGetD kvs "reason" (.str ""))
      let details ←
        (match dictGetD kvs "details" (.obj []) with
         | .obj kv => Except.ok kv
         | _ => Except.error "TypeError")
      .ok
        { action_type := atype, node_id := nid, node_type := ntype,
          «instance» := inst, reason := reason, details := details }
  | _ => .error "TypeError"

/-- Python's `xs[-limit:]` for a nonnegative `limit`: the last `limit` elements,
except that `limit = 0` yields the whole list (since `xs[-0:]` is `xs[0:]`). -/
def pyLastSlice {α : Type} (limit : Nat) (xs : List α) : List α :=
  if limit = 0 then xs else xs.drop (xs.length - limit)

/-- The `DiagnosisDataManager` state from `chen1110/controller/data_manager.py`:
the retention window and the per-`data_type.name` partitions of the store. -/
structure DiagnosisDataManager : Type where
  data_retention_time : Int := 600
  data_store : List (String × List WorkerTrainingMetric) := []
deriving Repr

/-- `DiagnosisDataManager._clean_old_data` applied to one partition: pop
expired entries from the front of the deque until the front is fresh. -/
def clean_old_data (data_retention_time current_time : Int)
    (dq : List WorkerTrainingMetric) : List WorkerTrainingMetric :=
  dq.dropWhile (fun m => decide (m.timestamp < current_time - data_retention_time))

/-- The timestamp-stamping step of `store_data`: a zero timestamp is replaced
with the current time. -/
def stampTimestamp (current_time : Int) (data : WorkerTrainingMetric) :
    WorkerTrainingMetric :=
  if data.timestamp = 0 then { data with timestamp := current_time } else data

/-- `DiagnosisDataManager.store_data`: append the (stamped) metric to the
partition named by its `data_type`, then clean that partition.  The
`current_time` argument makes the `int(time.time())` reads explicit. -/
def DiagnosisDataManager.store_data (mgr : DiagnosisDataManager)
    (current_time : Int) (data : WorkerTrainingMetric) : DiagnosisDataManager :=
  let data_type := data.data_type.name
  let dq := (dictFind mgr.data_store data_type).getD []
  let data := stampTimestamp current_time data
  let dq := clean_old_data mgr.data_retention_time current_time (dq ++ [data])
  { mgr with data_store := dictSet mgr.data_store data_type dq }

/-- `DiagnosisDataManager.get_data`: empty list for a missing partition,
otherwise the optional `node_id` filter followed by the `[-limit:]` slice. -/
def DiagnosisDataManager.get_data (mgr : DiagnosisDataManager)
    (data_type : String) (node_id : Option Int := none) (limit : Nat := 100) :
    List WorkerTrainingMetric :=
  match dictFind mgr.data_store data_type with
  | none => []
  | some dq =>
    let data_list :=
      match node_id with
      | none => dq
      | some nid => dq.filter (fun d => decide (d.node_id = nid))
    pyLastSlice limit data_list

/-- The intermediate `data_list` of `get_data` before the `[-limit:]` slice:
the partition's entries matching the optional `node_id` filter. -/
def DiagnosisDataManager.matchingData (mgr : DiagnosisDataManager)
    (data_type : String) (node_id : Option Int) : List WorkerTrainingMetric :=
  match dictFind mgr.data_store data_type with
  | none => []
  | some dq =>
    match node_id with
    | none => dq
    | some nid => dq.filter (fun d => decide (d.node_id = nid))

/-- `DiagnosisDataManager.get_latest_data`: `get_data` with `limit=1`, then
`data_list[0] if data_list else None`. -/
def DiagnosisDataManager.get_latest_data (mgr : DiagnosisDataManager)
    (data_type : String) (node_id : Option Int := none) :
    Option WorkerTrainingMetric :=
  (mgr.get_data data_type node_id 1).head?

/-- The partition of the store for one `data_type` name (empty when absent). -/
def DiagnosisDataManager.partitionOf (mgr : DiagnosisDataManager)
    (data_type : String) : List WorkerTrainingMetric :=
  (dictFind mgr.data_store data_type).getD []

/-- Runs a sequence of `store_data` calls, each given as a pair of the call's
`int(time.time())` value and the metric stored. -/
def runStores (mgr : DiagnosisDataManager)
    (ops : List (Int × WorkerTrainingMetric)) : DiagnosisDataManager :=
  ops.foldl (fun m p => m.store_data p.1 p.2) mgr

/-- The metrics of a run that land in the partition `data_type`, after
stamping, in arrival order. -/
def stampedFor (data_type : String) (ops : List (Int × WorkerTrainingMetric)) :
    List WorkerTrainingMetric :=
  (ops.map (fun p => stampTimestamp p.1 p.2)).filter
    (fun d => decide (d.data_type.name = data_type))

/-- Nondecreasing-timestamp order of a metric list. -/
def TsMono (l : List WorkerTrainingMetric) : Prop :=
  l.Pairwise (fun a b => a.timestamp ≤ b.timestamp)

instance (l : List WorkerTrainingMetric) : Decidable (TsMono l) :=
  inferInstanceAs (Decidable (l.Pairwise _))

/-- Results of the environment reads `get_node_id` / `get_node_type` from
`chen1110/common/utils.py`.  Both are total in the source: a missing or
malformed `NODE_ID` yields `-1`, a missing `NODE_TYPE` yields `"worker"`. -/
structure NodeEnv : Type where
  node_id : Int := -1
  node_type : String := "worker"
deriving DecidableEq, Repr

/-- `get_node_id()` as a function of the modelled environment. -/
def get_node_id (env : NodeEnv) : Int :=
  env.node_id

/-- `get_node_type()` as a function of the modelled environment. -/
def get_node_type (env : NodeEnv) : String :=
  env.node_type

/-- Thread handle; `Thread.join(timeout=5)` never raises and is a no-op on the
modelled state. -/
structure ThreadHandle : Type where
  ident : Nat := 0
deriving DecidableEq, Repr

/-- `thread.join(timeout=5)`: total, never raises. -/
def threadJoin (_t : ThreadHandle) : Except String Unit :=
  .ok ()

/-- Joins each collector thread in turn, as the loop in `stop` does. -/
def joinList : List ThreadHandle → Except String Unit
  | [] => .ok ()
  | t :: ts =>
    match threadJoin t with
    | .error e => .error e
    | .ok _ => joinList ts

/-- The `DiagnosisAgent` state from `chen1110/controller/diagnosis.py`.
Registry keys are collector object identities (Python dicts key
`DataCollector` instances by identity), modelled as `Nat`. -/
structure DiagnosisAgent : Type where
  training_log_file : String := ""
  errors : String := ""
  node_rank : Int := -1
  local_world_size : Int := 0
  stopped : Bool := false
  periodical_collectors : List (Nat × Int) := []
  report_thread : Option ThreadHandle := none
  collector_threads : List ThreadHandle := []
deriving Repr

/-- `DiagnosisAgent.__init__`: fresh agent, nothing registered, no threads. -/
def DiagnosisAgent.init (training_log_file : String := "")
    (errors : String := "") (node_rank : Int := -1)
    (local_world_size : Int := 0) : DiagnosisAgent :=
  { training_log_file := training_log_file, errors := errors,
    node_rank := node_rank, local_world_size := local_world_size,
    stopped := false, periodical_collectors := [], report_thread := none,
    collector_threads := [] }

/-- `DiagnosisAgent.register_periodical_data_collector`: clamp the interval to
the `MIN_DATA_COLLECT_INTERVAL` floor, then insert-or-overwrite the registry
entry for this collector. -/
def DiagnosisAgent.register_periodical_data_collector (st : DiagnosisAgent)
    (collector : Nat) (time_interval : Int) : DiagnosisAgent :=
  let time_interval :=
    if time_interval < DiagnosisConstant.MIN_DATA_COLLECT_INTERVAL then
      DiagnosisConstant.MIN_DATA_COLLECT_INTERVAL
    else time_interval
  { st with
    periodical_collectors := dictSet st.periodical_collectors collector time_interval }

/-- Runs a sequence of registration calls (collector identity, interval). -/
def runRegisters (st : DiagnosisAgent) (ops : List (Nat × Int)) : DiagnosisAgent :=
  ops.foldl (fun s p => s.register_periodical_data_collector p.1 p.2) st

/-- The last interval a registration sequence supplies for a collector. -/
def lastIntervalFor (ops : List (Nat × Int)) (c : Nat) : Option Int :=
  (ops.reverse.find? (fun p => decide (p.1 = c))).map Prod.snd

/-- `DiagnosisAgent.stop`: set the stop flag, then join the report thread when
one exists and join every collector thread.  Raising would be `Except.error`;
each translated statement is total. -/
def DiagnosisAgent.stop (st : DiagnosisAgent) : Except String DiagnosisAgent :=
  let st := { st with stopped := true }
  match (match st.report_thread with
         | some t => threadJoin t
         | none => Except.ok ()) with
  | .error e => .error e
  | .ok _ =>
    match joinList st.collector_threads with
    | .error e => .error e
    | .ok _ => .ok st

/-- A `DataCollector` as the scheduler sees it: the three operations of the
capability contract, each able to raise (`Except.error`).  `store_data` is the
only one that touches the shared store `σ`. -/
structure DataCollector (ε α σ : Type) : Type where
  is_enabled : Except ε Bool
  collect_data : Except ε (Option α)
  store_data : α → σ → Except ε σ

/-- The body of one tick of `_start_periodical_collector` (the `try` block):
check `is_enabled`, collect, and store a non-`None` result. -/
def collectorTickBody {ε α σ : Type} (c : DataCollector ε α σ) (s : σ) :
    Except ε σ := do
  let en ← c.is_enabled
  if en then
    match ← c.collect_data with
    | some d => c.store_data d s
    | none => pure s
  else
    pure s

/-- One tick of the polling loop: the `except` clause catches any error from
the body and leaves the store unchanged. -/
def collectorTick {ε α σ : Type} (c : DataCollector ε α σ) (s : σ) : σ :=
  match collectorTickBody c s with
  | .ok s₁ => s₁
  | .error _ => s

/-- One tick of every collector thread against the shared store. -/
def schedulerRound {ε α σ : Type} (cs : List (DataCollector ε α σ)) (s : σ) : σ :=
  cs.foldl (fun s₁ c => collectorTick c s₁) s

/-- One scheduling round plus one heartbeat of the independent reporter
thread: the second component counts heartbeats sent. -/
def schedulerStep {ε α σ : Type} (cs : List (DataCollector ε α σ))
    (st : σ × Nat) : σ × Nat :=
  (schedulerRound cs st.1, st.2 + 1)

/-- Runs the scheduler for `n` rounds. -/
def schedulerRun {ε α σ : Type} (cs : List (DataCollector ε α σ)) :
    Nat → σ × Nat → σ × Nat
  | 0, st => st
  | n + 1, st => schedulerRun cs n (schedulerStep cs st)

/-- `DiagnosisAgent.diagnose_training_failure`: default the `failures` dict,
compare `restart_count` against the hard-coded `max_restarts = 3`, and return
the corresponding `NodeAction`. -/
def DiagnosisAgent.diagnose_training_failure (env : NodeEnv)
    (failures : Option (List (String × String)) := none)
    (restart_count : Int := 0) : DiagnosisAction :=
  let _failures := failures.getD []
  let max_restarts : Int := 3
  if restart_count < max_restarts then
    NodeAction (get_node_id env) (get_node_type env)
      DiagnosisConstant.LOCAL_INSTANCE .RESTART_WORKER
      "Training process failed, restarting worker"
  else
    NodeAction (get_node_id env) (get_node_type env)
      DiagnosisConstant.LOCAL_INSTANCE .RELAUNCH_WORKER
      "Max restart attempts reached, relaunching node"

/-- Example metric helper for concrete instantiations: a `TRAINING_LOG`
metric with the given content and timestamp. -/
def exLog (c : String) (ts : Int) : WorkerTrainingMetric :=
  { data_type := .TRAINING_LOG, data_content := c, timestamp := ts }

/-- Example manager with the default 600 s retention holding one metric. -/
def exMgrDefault : DiagnosisDataManager :=
  DiagnosisDataManager.store_data {} 5 (exLog "a" 5)

/-- Example manager with a 10 s retention holding one metric stored at t = 1. -/
def exMgrStale : DiagnosisDataManager :=
  DiagnosisDataManager.store_data { data_retention_time := 10 } 1 (exLog "b" 1)

/-- Example manager with a 10 s retention fed stores whose timestamps arrive
out of order. -/
def exMgrOutOfOrder : DiagnosisDataManager :=
  runStores { data_retention_time := 10 }
    [(100, exLog "hi" 100), (100, exLog "lo" 5), (101, exLog "new" 101)]

/-- Example manager whose partition is not timestamp-sorted. -/
def exMgrUnsorted : DiagnosisDataManager :=
  runStores {} [(5, exLog "p" 5), (3, exLog "q" 3)]

/-- Example manager for the retention scenario: 10 s window, metrics recorded
at t = 0, 5, 9. -/
def exMgrScenario : DiagnosisDataManager :=
  runStores { data_retention_time := 10 }
    [(0, exLog "t0" 0), (5, exLog "t5" 5), (9, exLog "t9" 9)]

/-- Example manager with a 10 s retention holding one metric stored at t = 5. -/
def exMgrFresh : DiagnosisDataManager :=
  DiagnosisDataManager.store_data { data_retention_time := 10 } 5 (exLog "w" 5)

/-- Example collector whose `is_enabled` always raises. -/
def failingCollector : DataCollector String Unit Nat :=
  { is_enabled := .error "boom", collect_data := .ok none,
    store_data := fun _ s => .ok s }

/-- Example collector that counts its stores into a `Nat` store. -/
def countingCollector : DataCollector String Unit Nat :=
  { is_enabled := .ok true, collect_data := .ok (some ()),
    store_data := fun _ s => .ok (s + 1) }

section DictLemmas

variable {κ α : Type} [DecidableEq κ]

theorem dictFind_dictSet_self (d : List (κ × α)) (k : κ) (v : α) :
    dictFind (dictSet d k v) k = some v := by
  induction d with
  | nil => simp [dictSet, dictFind]
  | cons p rest ih =>
    obtain ⟨k₁, v₁⟩ := p
    by_cases h : k₁ = k
    · subst h; simp [dictSet, dictFind]
    · simp [dictSet, dictFind, h, ih]

theorem dictFind_dictSet_ne (d : List (κ × α)) (k k₂ : κ) (v : α)
    (h : k₂ ≠ k) : dictFind (dictSet d k v) k₂ = dictFind d k₂ := by
  have h' : k ≠ k₂ := Ne.symm h
  induction d with
  | nil => simp [dictSet, dictFind, h']
  | cons p rest ih =>
    obtain ⟨k₁, v₁⟩ := p
    by_cases h₁ : k₁ = k
    · subst h₁; simp [dictSet, dictFind, h']
    · by_cases h₂ : k₁ = k₂
      · subst h₂; simp [dictSet, dictFind, h₁]
      · simp [dictSet, dictFind, h₁, h₂, ih]

theorem dictKeys_dictSet (d : List (κ × α)) (k : κ) (v : α) :
    dictKeys (dictSet d k v)
      = if k ∈ dictKeys d then dictKeys d else dictKeys d ++ [k] := by
  induction d with
  | nil => simp [dictSet, dictKeys]
  | cons p rest ih =>
    obtain ⟨k₁, v₁⟩ := p
    by_cases h : k₁ = k
    · subst h; simp [dictSet, dictKeys]
    · have h' : ¬k = k₁ := fun e => h e.symm
      simp only [dictKeys, List.map_cons] at ih ⊢
      rw [dictSet]
      simp only [h, if_false, List.map_cons]
      by_cases hm : k ∈ rest.map Prod.fst <;>
        simp [List.mem_cons, h', hm, ih]

theorem dictKeys_nodup_dictSet (d : List (κ × α)) (k : κ) (v : α)
    (h : (dictKeys d).Nodup) : (dictKeys (dictSet d k v)).Nodup := by
  rw [dictKeys_dictSet]
  by_cases hm : k ∈ dictKeys d
  · simpa [hm] using h
  · rw [if_neg hm]
    exact h.append (List.nodup_singleton k)
      (fun x hx hk => hm ((List.mem_singleton.mp hk) ▸ hx))

theorem mem_dictKeys_of_find (d : List (κ × α)) (k : κ) (v : α)
    (h : dictFind d k = some v) : k ∈ dictKeys d := by
  induction d with
  | nil => simp [dictFind] at h
  | cons p rest ih =>
    obtain ⟨k₁, v₁⟩ := p
    by_cases h₁ : k₁ = k
    · subst h₁; simp [dictKeys]
    · simp only [dictFind, h₁, if_false] at h
      simpa [dictKeys] using Or.inr (by simpa [dictKeys] using ih h)

end DictLemmas

theorem joinList_ok (ts : List ThreadHandle) : joinList ts = .ok () := by
  induction ts with
  | nil => rfl
  | cons t ts ih => simp [joinList, threadJoin, ih]

theorem stop_eq (st : DiagnosisAgent) :
    st.stop = .ok { st with stopped := true } := by
  cases h : st.report_thread <;>
    simp [DiagnosisAgent.stop, threadJoin, joinList_ok, h]

/-- C9: calling `stop` twice in a row, or calling `stop` before `start` was
ever called (a freshly constructed agent), never raises and leaves the agent
with its stopped flag true after each call. -/
theorem stop_idempotent_spec :
    (∀ lf er nr lws, ∃ st₁ st₂,
        (DiagnosisAgent.init lf er nr lws).stop = .ok st₁ ∧ st₁.stopped = true ∧
        st₁.stop = .ok st₂ ∧ st₂.stopped = true)
    ∧ (∀ st : DiagnosisAgent, ∃ st₁ st₂,
        st.stop = .ok st₁ ∧ st₁.stopped = true ∧
        st₁.stop = .ok st₂ ∧ st₂.stopped = true) := by
  constructor
  · intro lf er nr lws
    exact ⟨_, _, stop_eq _, rfl, stop_eq _, rfl⟩
  · intro st
    exact ⟨_, _, stop_eq st, rfl, stop_eq _, rfl⟩

/-- C1: `diagnose_training_failure` is total for every failures dictionary
(including `None` and empty) and every `restart_count ≥ 0`, and returns the
`NodeAction` whose `action_type` is `RESTART_WORKER` exactly when
`restart_count < 3` (the hard-coded `max_restarts`) and `RELAUNCH_WORKER`
when `restart_count ≥ 3`. -/
theorem diagnose_training_failure_action_spec (env : NodeEnv)
    (failures : Option (List (String × String))) (restart_count : Int)
    (h : 0 ≤ restart_count) :
    (restart_count < 3 →
      DiagnosisAgent.diagnose_training_failure env failures restart_count
        = NodeAction (get_node_id env) (get_node_type env)
            DiagnosisConstant.LOCAL_INSTANCE .RESTART_WORKER
            "Training process failed, restarting worker")
    ∧ (3 ≤ restart_count →
      DiagnosisAgent.diagnose_training_failure env failures restart_count
        = NodeAction (get_node_id env) (get_node_type env)
            DiagnosisConstant.LOCAL_INSTANCE .RELAUNCH_WORKER
            "Max restart attempts reached, relaunching node")
    ∧ ((DiagnosisAgent.diagnose_training_failure env failures restart_count).action_type
        = if restart_count < 3 then .RESTART_WORKER else .RELAUNCH_WORKER) := by
  refine ⟨fun hlt => ?_, fun hge => ?_, ?_⟩
  · simp [DiagnosisAgent.diagnose_training_failure, hlt]
  · simp [DiagnosisAgent.diagnose_training_failure, Int.not_lt.mpr hge]
  · by_cases hlt : restart_count < 3 <;>
      simp [DiagnosisAgent.diagnose_training_failure, NodeAction, hlt]

theorem diagnose_training_failure_action_spec_witness :
    ((0 : Int) ≤ 2 ∧
      (DiagnosisAgent.diagnose_training_failure
          { node_id := 4, node_type := "worker" } none 2).action_type
        = if (2 : Int) < 3 then DiagnosisActionType.RESTART_WORKER
          else DiagnosisActionType.RELAUNCH_WORKER)
    ∧ ((0 : Int) ≤ 3 ∧
      (DiagnosisAgent.diagnose_training_failure
          { node_id := 4, node_type := "worker" } (some []) 3).action_type
        = if (3 : Int) < 3 then DiagnosisActionType.RESTART_WORKER
          else DiagnosisActionType.RELAUNCH_WORKER) :=
  ⟨⟨by decide,
    (diagnose_training_failure_action_spec _ none 2 (by decide)).2.2⟩,
   ⟨by decide,
    (diagnose_training_failure_action_spec _ (some []) 3 (by decide)).2.2⟩⟩

theorem runRegisters_cons (st : DiagnosisAgent) (p : Nat × Int)
    (ops : List (Nat × Int)) :
    runRegisters st (p :: ops)
      = runRegisters (st.register_periodical_data_collector p.1 p.2) ops := rfl

theorem lastIntervalFor_cons (p : Nat × Int) (ops : List (Nat × Int)) (c : Nat) :
    lastIntervalFor (p :: ops) c
      = (lastIntervalFor ops c).or (if p.1 = c then some p.2 else none) := by
  unfold lastIntervalFor
  rw [List.reverse_cons, List.find?_append]
  cases h : List.find? (fun q => decide (q.1 = c)) ops.reverse with
  | some q => simp [h]
  | none =>
    by_cases hc : p.1 = c <;> simp [h, hc, List.find?]

theorem runRegisters_dictFind (ops : List (Nat × Int)) :
    ∀ (st : DiagnosisAgent) (c : Nat),
      dictFind (runRegisters st ops).periodical_collectors c
        = match lastIntervalFor ops c with
          | some i =>
            some (if i < DiagnosisConstant.MIN_DATA_COLLECT_INTERVAL then
              DiagnosisConstant.MIN_DATA_COLLECT_INTERVAL else i)
          | none => dictFind st.periodical_collectors c := by
  induction ops with
  | nil => intro st c; simp [runRegisters, lastIntervalFor]
  | cons p ops ih =>
    intro st c
    rw [runRegisters_cons,
      ih (st.register_periodical_data_collector p.1 p.2) c,
      lastIntervalFor_cons]
    cases h : lastIntervalFor ops c with
    | some i => simp
    | none =>
      by_cases hc : p.1 = c
      · subst hc
        simp [DiagnosisAgent.register_periodical_data_collector,
          dictFind_dictSet_self]
      · simp [hc, DiagnosisAgent.register_periodical_data_collector,
          dictFind_dictSet_ne _ _ _ _ (fun e => hc e.symm)]

theorem runRegisters_keys_nodup (ops : List (Nat × Int)) :
    ∀ st : DiagnosisAgent, (dictKeys st.periodical_collectors).Nodup →
      (dictKeys (runRegisters st ops).periodical_collectors).Nodup := by
  induction ops with
  | nil => intro st h; exact h
  | cons p ops ih =>
    intro st h
    rw [runRegisters_cons]
    exact ih _ (dictKeys_nodup_dictSet _ _ _ h)

/-- C6: after any sequence of registration calls on a fresh agent, the
registry holds exactly one entry for each registered collector, whose
interval is the last interval supplied for it clamped to the 30-second
`MIN_DATA_COLLECT_INTERVAL` floor (clamping never rejects). -/
theorem register_collector_registry_spec (lf er : String) (nr lws : Int)
    (ops : List (Nat × Int)) (c : Nat) (i : Int)
    (hlast : lastIntervalFor ops c = some i) :
    dictFind (runRegisters (DiagnosisAgent.init lf er nr lws) ops).periodical_collectors c
      = some (if i < DiagnosisConstant.MIN_DATA_COLLECT_INTERVAL then
          DiagnosisConstant.MIN_DATA_COLLECT_INTERVAL else i)
    ∧ (dictKeys (runRegisters (DiagnosisAgent.init lf er nr lws) ops).periodical_collectors).count c
        = 1 := by
  have hfind := runRegisters_dictFind ops (DiagnosisAgent.init lf er nr lws) c
  rw [hlast] at hfind
  refine ⟨hfind, ?_⟩
  have hnodup := runRegisters_keys_nodup ops (DiagnosisAgent.init lf er nr lws)
    (by simp [DiagnosisAgent.init, dictKeys])
  exact List.count_eq_one_of_mem hnodup (mem_dictKeys_of_find _ _ _ hfind)

theorem register_collector_registry_spec_witness :
    lastIntervalFor [(7, 45), (7, 10)] 7 = some 10
    ∧ dictFind (runRegisters (DiagnosisAgent.init "" "" (-1) 0)
        [(7, 45), (7, 10)]).periodical_collectors 7 = some 30
    ∧ (dictKeys (runRegisters (DiagnosisAgent.init "" "" (-1) 0)
        [(7, 45), (7, 10)]).periodical_collectors).count 7 = 1 :=
  have h := register_collector_registry_spec "" "" (-1) 0 [(7, 45), (7, 10)] 7 10
    (by decide)
  ⟨by decide, by simpa using h.1, h.2⟩

theorem pyLastSlice_suffix {α : Type} (limit : Nat) (xs : List α) :
    pyLastSlice limit xs <:+ xs := by
  unfold pyLastSlice
  split
  · exact List.suffix_refl xs
  · exact List.drop_suffix _ _

theorem pyLastSlice_one_head {α : Type} (xs : List α) :
    (pyLastSlice 1 xs).head? = xs.getLast? := by
  unfold pyLastSlice
  rw [if_neg one_ne_zero, List.head?_drop, List.getLast?_eq_getElem?]

theorem pyLastSlice_getLast? {α : Type} (limit : Nat) (xs : List α) :
    (pyLastSlice limit xs).getLast? = xs.getLast? := by
  unfold pyLastSlice
  split
  · rfl
  · next hlim =>
    rw [List.getLast?_drop]
    by_cases hle : xs.length ≤ xs.length - limit
    · have hx : xs = [] := List.length_eq_zero.mp (by omega)
      subst hx
      simp
    · rw [if_neg hle]

theorem get_data_eq (mgr : DiagnosisDataManager) (dt : String)
    (nid : Option Int) (limit : Nat) :
    mgr.get_data dt nid limit = pyLastSlice limit (mgr.matchingData dt nid) := by
  unfold DiagnosisDataManager.get_data DiagnosisDataManager.matchingData
  cases h : dictFind mgr.data_store dt with
  | none => cases nid <;> simp [pyLastSlice]
  | some dq => cases nid <;> simp

theorem matchingData_sublist_partition (mgr : DiagnosisDataManager)
    (dt : String) (nid : Option Int) :
    (mgr.matchingData dt nid).Sublist (mgr.partitionOf dt) := by
  unfold DiagnosisDataManager.matchingData DiagnosisDataManager.partitionOf
  cases dictFind mgr.data_store dt with
  | none => simp
  | some dq =>
    cases nid with
    | none => simp
    | some n => simpa using List.filter_sublist dq

theorem get_data_sublist_partition (mgr : DiagnosisDataManager) (dt : String)
    (nid : Option Int) (limit : Nat) :
    (mgr.get_data dt nid limit).Sublist (mgr.partitionOf dt) := by
  rw [get_data_eq]
  exact (pyLastSlice_suffix _ _).sublist.trans (matchingData_sublist_partition _ _ _)

theorem mem_get_data (mgr : DiagnosisDataManager) (dt : String)
    (nid : Option Int) (limit : Nat) (m : WorkerTrainingMetric)
    (h : m ∈ mgr.get_data dt nid limit) : m ∈ mgr.partitionOf dt :=
  (get_data_sublist_partition mgr dt nid limit).mem h

theorem partition_store_self (mgr : DiagnosisDataManager) (current_time : Int)
    (d : WorkerTrainingMetric) :
    (mgr.store_data current_time d).partitionOf d.data_type.name
      = clean_old_data mgr.data_retention_time current_time
          (mgr.partitionOf d.data_type.name ++ [stampTimestamp current_time d]) := by
  simp [DiagnosisDataManager.store_data, DiagnosisDataManager.partitionOf,
    dictFind_dictSet_self]

theorem partition_store_other (mgr : DiagnosisDataManager) (current_time : Int)
    (d : WorkerTrainingMetric) (dt : String) (h : dt ≠ d.data_type.name) :
    (mgr.store_data current_time d).partitionOf dt = mgr.partitionOf dt := by
  simp [DiagnosisDataManager.store_data, DiagnosisDataManager.partitionOf,
    dictFind_dictSet_ne _ _ _ _ h]

theorem ts_le_of_mem_dropWhile (c : Int) :
    ∀ l : List WorkerTrainingMetric, TsMono l →
      ∀ m ∈ l.dropWhile (fun x => decide (x.timestamp < c)), c ≤ m.timestamp := by
  intro l
  induction l with
  | nil => intro _ m hm; simp [List.dropWhile] at hm
  | cons a l ih =>
    intro hmono m hm
    simp only [TsMono, List.pairwise_cons] at hmono
    by_cases ha : a.timestamp < c
    · rw [List.dropWhile_cons_of_pos (by simpa using ha)] at hm
      exact ih hmono.2 m hm
    · rw [List.dropWhile_cons_of_neg (by simpa using ha)] at hm
      rcases List.mem_cons.mp hm with rfl | hml
      · exact Int.not_lt.mp ha
      · exact le_trans (Int.not_lt.mp ha) (hmono.1 m hml)

/-- C2 as stated is false: eviction is lazy, so with no `store_data` call
since a metric expired, `get_data` still returns it.  Here the store holds a
metric with timestamp 1 under a 10 s retention window, and at query instant
100 the metric — far older than `now` minus the window — is still returned. -/
theorem get_data_stale_after_idle_cex :
    exMgrStale.get_data "TRAINING_LOG" none 100 = [exLog "b" 1]
    ∧ (exLog "b" 1).timestamp < 100 - exMgrStale.data_retention_time := by
  constructor
  · rfl
  · decide

/-- C2 amended: `get_data` never returns a metric older than `T` minus the
retention window, where `T` is the time of the most recent `store_data` call
to the queried partition, provided the partition's timestamps (including the
newly stamped metric) are in nondecreasing order at that call.  Without such
a call, stale metrics may persist, since eviction happens only in
`store_data`. -/
theorem get_data_fresh_since_last_store (mgr : DiagnosisDataManager)
    (current_time : Int) (d : WorkerTrainingMetric) (nid : Option Int)
    (limit : Nat) (m : WorkerTrainingMetric)
    (hmono : TsMono (mgr.partitionOf d.data_type.name
      ++ [stampTimestamp current_time d]))
    (hm : m ∈ (mgr.store_data current_time d).get_data d.data_type.name nid limit) :
    current_time - mgr.data_retention_time ≤ m.timestamp := by
  have hpart := mem_get_data _ _ _ _ _ hm
  rw [partition_store_self] at hpart
  simp only [clean_old_data] at hpart
  exact ts_le_of_mem_dropWhile _ _ hmono m hpart

theorem get_data_fresh_since_last_store_witness :
    TsMono (exMgrFresh.partitionOf "TRAINING_LOG" ++ [stampTimestamp 20 (exLog "n" 20)])
    ∧ exLog "n" 20 ∈ (exMgrFresh.store_data 20 (exLog "n" 20)).get_data
        "TRAINING_LOG" none 100
    ∧ (20 : Int) - exMgrFresh.data_retention_time ≤ (exLog "n" 20).timestamp :=
  ⟨by decide, by decide,
   get_data_fresh_since_last_store exMgrFresh 20 (exLog "n" 20) none 100
     (exLog "n" 20) (by decide) (by decide)⟩

theorem not_mem_partition_store (mgr : DiagnosisDataManager)
    (current_time : Int) (d : WorkerTrainingMetric) (dt : String)
    (m : WorkerTrainingMetric) (hpart : m ∉ mgr.partitionOf dt)
    (hnew : stampTimestamp current_time d ≠ m) :
    m ∉ (mgr.store_data current_time d).partitionOf dt := by
  intro hmem
  by_cases hdt : d.data_type.name = dt
  · rw [← hdt, partition_store_self] at hmem
    simp only [clean_old_data] at hmem
    have hm₂ := (List.dropWhile_sublist _).mem hmem
    rcases List.mem_append.mp hm₂ with hL | hR
    · exact hpart (hdt ▸ hL)
    · exact hnew (List.mem_singleton.mp hR).symm
  · rw [partition_store_other mgr current_time d dt (fun e => hdt e.symm)] at hmem
    exact hpart hmem

theorem runStores_cons (mgr : DiagnosisDataManager)
    (p : Int × WorkerTrainingMetric) (ops : List (Int × WorkerTrainingMetric)) :
    runStores mgr (p :: ops) = runStores (mgr.store_data p.1 p.2) ops := rfl

theorem not_mem_partition_runStores (ops : List (Int × WorkerTrainingMetric)) :
    ∀ (mgr : DiagnosisDataManager) (dt : String) (m : WorkerTrainingMetric),
      m ∉ mgr.partitionOf dt → (∀ p ∈ ops, stampTimestamp p.1 p.2 ≠ m) →
      m ∉ (runStores mgr ops).partitionOf dt := by
  induction ops with
  | nil => intro mgr dt m h _; exact h
  | cons p ops ih =>
    intro mgr dt m h hops
    rw [runStores_cons]
    exact ih _ dt m
      (not_mem_partition_store mgr p.1 p.2 dt m h (hops p (List.mem_cons_self p ops)))
      (fun q hq => hops q (List.mem_cons_of_mem p hq))

/-- C3 as stated is false when timestamps arrive out of order: eviction pops
only from the front, so an expired entry sitting behind a fresh one survives
the next `store_data` call.  With a 10 s window, after stores of timestamps
100, 5 (at t = 100) and 101 (at t = 101), the timestamp-5 metric was expired
at the t = 101 store call yet is still returned. -/
theorem expired_metric_out_of_order_cex :
    (exLog "lo" 5).timestamp < 101 - exMgrOutOfOrder.data_retention_time
    ∧ exLog "lo" 5 ∈ exMgrOutOfOrder.get_data "TRAINING_LOG" none 100 := by
  constructor
  · decide
  · decide

/-- C3 amended: provided the queried partition's timestamps (with the newly
stamped metric) are nondecreasing at a `store_data` call at `current_time`,
every metric older than `current_time` minus the retention window is absent
from that partition in all subsequent `get_data` results, as long as the
subsequent stores do not store that metric value again. -/
theorem expired_metric_absent_after_store (mgr : DiagnosisDataManager)
    (current_time : Int) (d : WorkerTrainingMetric)
    (ops : List (Int × WorkerTrainingMetric)) (nid : Option Int) (limit : Nat)
    (m : WorkerTrainingMetric)
    (hmono : TsMono (mgr.partitionOf d.data_type.name
      ++ [stampTimestamp current_time d]))
    (hexp : m.timestamp < current_time - mgr.data_retention_time)
    (hops : ∀ p ∈ ops, stampTimestamp p.1 p.2 ≠ m) :
    m ∉ (runStores (mgr.store_data current_time d) ops).get_data
        d.data_type.name nid limit := by
  intro hmem
  have hpartm := mem_get_data _ _ _ _ _ hmem
  have hafter : m ∉ (mgr.store_data current_time d).partitionOf d.data_type.name := by
    intro hmem₂
    rw [partition_store_self] at hmem₂
    simp only [clean_old_data] at hmem₂
    exact absurd (ts_le_of_mem_dropWhile _ _ hmono m hmem₂) (Int.not_le.mpr hexp)
  exact not_mem_partition_runStores ops _ _ m hafter hops hpartm

theorem expired_metric_absent_after_store_witness :
    TsMono (exMgrScenario.partitionOf "TRAINING_LOG"
      ++ [stampTimestamp 20 (exLog "t20" 20)])
    ∧ (exLog "t5" 5).timestamp < 20 - exMgrScenario.data_retention_time
    ∧ exLog "t5" 5 ∉ (runStores (exMgrScenario.store_data 20 (exLog "t20" 20))
        []).get_data "TRAINING_LOG" none 100
    ∧ (exMgrScenario.store_data 20 (exLog "t20" 20)).get_data
        "TRAINING_LOG" none 100 = [exLog "t20" 20] :=
  ⟨by decide, by decide,
   expired_metric_absent_after_store exMgrScenario 20 (exLog "t20" 20) [] none
     100 (exLog "t5" 5) (by decide) (by decide) (by intro p hp; cases hp),
   by decide⟩

/-- C4's first conjunct is false as stated: `store_data` appends whatever
timestamp the caller supplies, so storing timestamps 5 then 3 leaves the
partition out of nondecreasing timestamp order. -/
theorem partition_order_cex :
    ¬ TsMono (exMgrUnsorted.partitionOf "TRAINING_LOG") := by
  decide

theorem stampTimestamp_data_type (current_time : Int)
    (d : WorkerTrainingMetric) :
    (stampTimestamp current_time d).data_type = d.data_type := by
  unfold stampTimestamp
  split <;> rfl

theorem stampedFor_cons (dt : String) (p : Int × WorkerTrainingMetric)
    (ops : List (Int × WorkerTrainingMetric)) :
    stampedFor dt (p :: ops)
      = if p.2.data_type.name = dt
        then stampTimestamp p.1 p.2 :: stampedFor dt ops
        else stampedFor dt ops := by
  unfold stampedFor
  rw [List.map_cons]
  by_cases h : p.2.data_type.name = dt
  · rw [List.filter_cons_of_pos (by simp [stampTimestamp_data_type, h]), if_pos h]
  · rw [List.filter_cons_of_neg (by simp [stampTimestamp_data_type, h]), if_neg h]

theorem partition_runStores_sublist (ops : List (Int × WorkerTrainingMetric)) :
    ∀ (mgr : DiagnosisDataManager) (dt : String),
      ((runStores mgr ops).partitionOf dt).Sublist
        (mgr.partitionOf dt ++ stampedFor dt ops) := by
  induction ops with
  | nil => intro mgr dt; simp [runStores, stampedFor]
  | cons p ops ih =>
    intro mgr dt
    rw [runStores_cons, stampedFor_cons]
    by_cases hdt : p.2.data_type.name = dt
    · rw [if_pos hdt]
      have h2 : ((mgr.store_data p.1 p.2).partitionOf dt).Sublist
          (mgr.partitionOf dt ++ [stampTimestamp p.1 p.2]) := by
        rw [← hdt, partition_store_self]
        simp only [clean_old_data]
        exact List.dropWhile_sublist _
      refine List.Sublist.trans (ih _ dt) ?_
      have h3 := h2.append_right (stampedFor dt ops)
      simpa [List.append_assoc] using h3
    · rw [if_neg hdt]
      have h4 := ih (mgr.store_data p.1 p.2) dt
      rwa [partition_store_other mgr p.1 p.2 dt (fun e => hdt e.symm)] at h4

/-- C4 amended: eviction removes only from the front of a partition
(`clean_old_data` yields a suffix); a partition in nondecreasing timestamp
order stays so across a `store_data` whose stamped metric does not precede
the existing entries; and `get_data` after any sequence of stores returns a
subsequence (hence the recorded relative order) of the initial partition
followed by the stamped stored metrics in arrival order.  The unconditional
ordering claim fails for out-of-order timestamps. -/
theorem partition_order_invariants :
    (∀ (data_retention_time current_time : Int)
        (dq : List WorkerTrainingMetric),
      (clean_old_data data_retention_time current_time dq).IsSuffix dq)
    ∧ (∀ (mgr : DiagnosisDataManager) (current_time : Int)
          (d : WorkerTrainingMetric),
        TsMono (mgr.partitionOf d.data_type.name
          ++ [stampTimestamp current_time d]) →
        TsMono ((mgr.store_data current_time d).partitionOf d.data_type.name))
    ∧ (∀ (mgr : DiagnosisDataManager) (ops : List (Int × WorkerTrainingMetric))
          (dt : String) (nid : Option Int) (limit : Nat),
        ((runStores mgr ops).get_data dt nid limit).Sublist
          (mgr.partitionOf dt ++ stampedFor dt ops)) := by
  refine ⟨?_, ?_, ?_⟩
  · intro r t dq
    simp only [clean_old_data]
    exact List.dropWhile_suffix _
  · intro mgr t d hmono
    rw [partition_store_self]
    simp only [clean_old_data, TsMono]
    exact List.Pairwise.sublist (List.dropWhile_sublist _) hmono
  · intro mgr ops dt nid limit
    exact List.Sublist.trans (get_data_sublist_partition _ _ _ _)
      (partition_runStores_sublist ops mgr dt)

theorem partition_order_invariants_witness :
    (clean_old_data 10 20 [exLog "lo" 5, exLog "hi" 100]).IsSuffix
      [exLog "lo" 5, exLog "hi" 100]
    ∧ (TsMono (exMgrFresh.partitionOf "TRAINING_LOG"
        ++ [stampTimestamp 20 (exLog "n" 20)])
      ∧ TsMono ((exMgrFresh.store_data 20 (exLog "n" 20)).partitionOf
          "TRAINING_LOG"))
    ∧ ((runStores exMgrFresh [(20, exLog "n" 20)]).get_data
        "TRAINING_LOG" none 100).Sublist
        (exMgrFresh.partitionOf "TRAINING_LOG"
          ++ stampedFor "TRAINING_LOG" [(20, exLog "n" 20)]) :=
  ⟨partition_order_invariants.1 10 20 _,
   ⟨by decide, partition_order_invariants.2.1 exMgrFresh 20 (exLog "n" 20) (by decide)⟩,
   partition_order_invariants.2.2 exMgrFresh [(20, exLog "n" 20)]
     "TRAINING_LOG" none 100⟩

/-- C5: `get_latest_data` equals `get_data` with `limit = 1` followed by the
head, and equals the last element of `get_data` at any limit — in particular
an unbounded one — evaluated on the same state; both are `none` when the
partition is empty or missing. -/
theorem get_latest_data_spec (mgr : DiagnosisDataManager) (dt : String)
    (nid : Option Int) (limit : Nat) :
    mgr.get_latest_data dt nid = (mgr.get_data dt nid 1).head?
    ∧ mgr.get_latest_data dt nid = (mgr.get_data dt nid limit).getLast? := by
  constructor
  · rfl
  · rw [DiagnosisDataManager.get_latest_data, get_data_eq, get_data_eq,
      pyLastSlice_getLast?, pyLastSlice_one_head]

/-- C7 fails at `limit = 0`: Python's `data_list[-0:]` is the whole list, so
`get_data` with `limit = 0` returns every entry of the partition instead of
at most zero. -/
theorem get_data_limit_zero_cex :
    exMgrDefault.get_data "TRAINING_LOG" none 0 = [exLog "a" 5]
    ∧ ¬ (exMgrDefault.get_data "TRAINING_LOG" none 0).length ≤ 0 := by
  constructor
  · rfl
  · decide

/-- C7 amended: for `limit ≥ 1`, `get_data` returns at most `limit` entries —
exactly `min limit n` of the `n` matching entries, as the trailing (most
recent) slice of the matching entries in stored (oldest-first) order; and a
missing partition yields the empty list, never an error, for every limit. -/
theorem get_data_limit_spec (mgr : DiagnosisDataManager) (dt : String)
    (nid : Option Int) (limit : Nat) :
    (1 ≤ limit →
      (mgr.get_data dt nid limit).length ≤ limit
      ∧ (mgr.get_data dt nid limit).length
          = min limit (mgr.matchingData dt nid).length)
    ∧ (mgr.get_data dt nid limit).IsSuffix (mgr.matchingData dt nid)
    ∧ (dictFind mgr.data_store dt = none → mgr.get_data dt nid limit = []) := by
  refine ⟨fun hlim => ?_, ?_, fun hnone => ?_⟩
  · rw [get_data_eq]
    unfold pyLastSlice
    rw [if_neg (by omega), List.length_drop]
    constructor <;> omega
  · rw [get_data_eq]
    exact pyLastSlice_suffix _ _
  · simp [DiagnosisDataManager.get_data, hnone]

theorem get_data_limit_spec_witness :
    (1 ≤ 1
      ∧ (exMgrDefault.get_data "TRAINING_LOG" none 1).length ≤ 1
      ∧ (exMgrDefault.get_data "TRAINING_LOG" none 1).length
          = min 1 (exMgrDefault.matchingData "TRAINING_LOG" none).length)
    ∧ (exMgrDefault.get_data "TRAINING_LOG" none 1).IsSuffix
        (exMgrDefault.matchingData "TRAINING_LOG" none)
    ∧ dictFind exMgrDefault.data_store "STACK_TRACE" = none
    ∧ exMgrDefault.get_data "STACK_TRACE" none 1 = [] :=
  have h := get_data_limit_spec exMgrDefault "TRAINING_LOG" none 1
  have h₂ := get_data_limit_spec exMgrDefault "STACK_TRACE" none 1
  ⟨⟨le_refl 1, (h.1 (le_refl 1)).1, (h.1 (le_refl 1)).2⟩, h.2.1,
   by decide, h₂.2.2 (by decide)⟩

theorem collectorTick_of_error {ε α σ : Type} (c : DataCollector ε α σ)
    (s : σ) (e : ε) (h : collectorTickBody c s = .error e) :
    collectorTick c s = s := by
  unfold collectorTick
  rw [h]

theorem schedulerRound_append {ε α σ : Type}
    (cs₁ cs₂ : List (DataCollector ε α σ)) (s : σ) :
    schedulerRound (cs₁ ++ cs₂) s = schedulerRound cs₂ (schedulerRound cs₁ s) := by
  unfold schedulerRound
  rw [List.foldl_append]

theorem schedulerRound_cons {ε α σ : Type} (c : DataCollector ε α σ)
    (cs : List (DataCollector ε α σ)) (s : σ) :
    schedulerRound (c :: cs) s = schedulerRound cs (collectorTick c s) := rfl

theorem schedulerRound_skip {ε α σ : Type}
    (cs₁ cs₂ : List (DataCollector ε α σ)) (c : DataCollector ε α σ)
    (h : ∀ s : σ, ∃ e, collectorTickBody c s = .error e) (s : σ) :
    schedulerRound (cs₁ ++ c :: cs₂) s = schedulerRound (cs₁ ++ cs₂) s := by
  rw [schedulerRound_append, schedulerRound_append, schedulerRound_cons]
  obtain ⟨e, he⟩ := h (schedulerRound cs₁ s)
  rw [collectorTick_of_error _ _ _ he]

theorem schedulerRun_snd {ε α σ : Type} (cs : List (DataCollector ε α σ))
    (n : Nat) : ∀ st : σ × Nat, (schedulerRun cs n st).2 = st.2 + n := by
  induction n with
  | zero => intro st; rfl
  | succ n ih =>
    intro st
    simp only [schedulerRun]
    rw [ih]
    simp [schedulerStep]
    omega

/-- C8: for every collector all of whose ticks raise (from `is_enabled`,
`collect_data` or `store_data`), the exception is caught inside the tick and
never propagates: the scheduler keeps running (it is total), its runs equal
the runs without that collector — so the other collectors' effects on the
shared store are unaffected — and the independent heartbeat reporter still
sends one heartbeat per round. -/
theorem collector_exception_isolated {ε α σ : Type}
    (cs₁ cs₂ : List (DataCollector ε α σ)) (c : DataCollector ε α σ)
    (h : ∀ s : σ, ∃ e, collectorTickBody c s = .error e)
    (n : Nat) (s : σ) (hb : Nat) :
    schedulerRun (cs₁ ++ c :: cs₂) n (s, hb) = schedulerRun (cs₁ ++ cs₂) n (s, hb)
    ∧ (schedulerRun (cs₁ ++ c :: cs₂) n (s, hb)).2 = hb + n := by
  have hrun : ∀ (k : Nat) (st : σ × Nat),
      schedulerRun (cs₁ ++ c :: cs₂) k st = schedulerRun (cs₁ ++ cs₂) k st := by
    intro k
    induction k with
    | zero => intro st; rfl
    | succ k ih =>
      intro st
      simp only [schedulerRun]
      rw [show schedulerStep (cs₁ ++ c :: cs₂) st = schedulerStep (cs₁ ++ cs₂) st from by
        simp [schedulerStep, schedulerRound_skip cs₁ cs₂ c h]]
      exact ih _
  refine ⟨hrun n (s, hb), ?_⟩
  rw [hrun n (s, hb)]
  exact schedulerRun_snd _ n (s, hb)

theorem collector_exception_isolated_witness :
    (∀ s : Nat, ∃ e, collectorTickBody failingCollector s = .error e)
    ∧ schedulerRun [countingCollector, failingCollector] 3 (0, 0)
        = schedulerRun [countingCollector] 3 (0, 0)
    ∧ (schedulerRun [countingCollector, failingCollector] 3 (0, 0)).2 = 0 + 3 :=
  have h : ∀ s : Nat, ∃ e, collectorTickBody failingCollector s = .error e :=
    fun _ => ⟨"boom", rfl⟩
  ⟨h,
   (collector_exception_isolated [countingCollector] [] failingCollector h 3 0 0).1,
   (collector_exception_isolated [countingCollector] [] failingCollector h 3 0 0).2⟩

theorem dataType_name_round (t : DiagnosisDataType) :
    DiagnosisDataType.ofName t.name = some t := by
  cases t <;> rfl

theorem actionType_name_round (t : DiagnosisActionType) :
    DiagnosisActionType.ofName t.name = some t := by
  cases t <;> rfl

theorem metric_to_json_round (m : WorkerTrainingMetric) :
    WorkerTrainingMetric.from_json m.to_json = .ok m := by
  obtain ⟨dt, dc, ni, nt, nr, ts⟩ := m
  cases dt <;> rfl

theorem action_to_json_round (a : DiagnosisAction) :
    DiagnosisAction.from_json a.to_json = .ok a := by
  obtain ⟨atype, ni, nt, inst, reason, details⟩ := a
  cases atype <;> cases ni <;> cases nt <;> rfl

/-- C10: decoding the JSON encoding reconstructs an equal value, for every
`WorkerTrainingMetric` and every `DiagnosisAction` — in particular for the
values built by the `NoAction` and `NodeAction` subclass constructors (the
fields of both types are JSON-representable by construction here). -/
theorem json_round_trip :
    (∀ m : WorkerTrainingMetric,
      WorkerTrainingMetric.from_json m.to_json = .ok m)
    ∧ (∀ a : DiagnosisAction, DiagnosisAction.from_json a.to_json = .ok a)
    ∧ DiagnosisAction.from_json NoAction.to_json = .ok NoAction
    ∧ (∀ (nid : Int) (ntype inst : String) (atype : DiagnosisActionType)
          (reason : String),
        DiagnosisAction.from_json (NodeAction nid ntype inst atype reason).to_json
          = .ok (NodeAction nid ntype inst atype reason)) :=
  ⟨metric_to_json_round, action_to_json_round, action_to_json_round NoAction,
   fun nid ntype inst atype reason =>
     action_to_json_round (NodeAction nid ntype inst atype reason)⟩

end Chen1110
